import Mathlib

/-!
Verification of the EMA trading strategy core (ema_algo_trading.py) and the
backtesting engine (backtest_engine.py).

The embedding models prices, volumes and capital as rationals.  The Python
code computes with IEEE floats via pandas; every definition below mirrors the
source formulas exactly over the rationals, and the two places where float
special values matter are modelled explicitly:

* pandas division of a positive rolling-mean by a zero rolling-mean yields
  +inf (so RSI becomes 100), and 0/0 yields NaN (so RSI becomes NaN); the
  RSI value is therefore an `Option` with `none` playing the role of NaN,
  and every comparison against a NaN RSI is `false`, as in IEEE semantics.
* Python `int()` truncates toward zero; `pyInt` below does the same.

Out-of-range pandas `iloc` accesses raise `IndexError`, and subscripting
`None` raises `TypeError`; functions that can hit those paths return
`Option` results with `none` modelling the raised exception.
-/

/-- The last element of a list of rationals, 0 for the empty list.
Models `series.iloc[-1]`; every use site is guarded so the list is
nonempty (pandas would raise `IndexError` otherwise). -/
def lastD (l : List ℚ) : ℚ := l.getLast?.getD 0

/-- The second to last element, 0 when fewer than two elements.
Models `series.iloc[-2]` under the same guard discipline. -/
def prevLastD (l : List ℚ) : ℚ := lastD l.dropLast

/-- The last `k` elements of a list.  Models `series.iloc[-k:]`. -/
def lastK (l : List ℚ) (k : Nat) : List ℚ := l.drop (l.length - k)

/-- Mean of the last `k` elements.  Models `series.rolling(k).mean().iloc[-1]`
(valid when the list has at least `k` elements). -/
def meanK (l : List ℚ) (k : Nat) : ℚ := (lastK l k).sum / (k : ℚ)

/-- Minimum of a list, 0 for the empty list.  Models `series.min()` at the
use sites, which are all guarded to be nonempty. -/
def listMin : List ℚ → ℚ
  | [] => 0
  | x :: xs => xs.foldl min x

/-- Maximum of a list, 0 for the empty list.  Models `series.max()`. -/
def listMax : List ℚ → ℚ
  | [] => 0
  | x :: xs => xs.foldl max x

/-- Python `int()` applied to a rational: truncation toward zero. -/
def pyInt (q : ℚ) : ℤ := if 0 ≤ q then ⌊q⌋ else ⌈q⌉

/-- One OHLCV candle.  `openP` is the open price (`open` is a Lean keyword). -/
structure Candle where
  timestamp : ℚ
  openP : ℚ
  high : ℚ
  low : ℚ
  close : ℚ
  volume : ℚ
deriving DecidableEq

/-- Recurrence of `Series.ewm(span, adjust=False).mean()` after the seed:
y = (1 - a) * prev + a * x for each subsequent element. -/
def emaScan (a p : ℚ) : List ℚ → List ℚ
  | [] => []
  | x :: xs =>
    let y := (1 - a) * p + a * x
    y :: emaScan a y xs

/-- `Series.ewm(span, adjust=False).mean()` with smoothing factor `a`:
seeded at the first element, then the exponential recurrence. -/
def ewmMean (a : ℚ) : List ℚ → List ℚ
  | [] => []
  | x :: xs => x :: emaScan a x xs

/-- EMAStrategy.calculate_ema: `data['close'].ewm(span=period, adjust=False).mean()`
with smoothing factor 2 / (period + 1). -/
def calculate_ema (closes : List ℚ) (period : ℕ) : List ℚ :=
  ewmMean (2 / ((period : ℚ) + 1)) closes

/-- The per-bar positive deltas of `close.diff()`.  The first delta is NaN in
pandas and `delta.where(delta > 0, 0)` maps it to 0, hence the leading 0. -/
def gainsList (closes : List ℚ) : List ℚ :=
  0 :: (List.zipWith (fun a b => a - b) closes.tail closes).map
    (fun d => if 0 < d then d else 0)

/-- The per-bar negative deltas of `close.diff()`, negated, NaN mapped to 0. -/
def lossesList (closes : List ℚ) : List ℚ :=
  0 :: (List.zipWith (fun a b => a - b) closes.tail closes).map
    (fun d => if d < 0 then -d else 0)

/-- EMAStrategy.calculate_rsi, value at the latest bar.  `none` models NaN:
with fewer than `period` bars the rolling means are NaN, and with zero
average gain and zero average loss the float quotient rs = 0/0 is NaN.  A
zero average loss with positive average gain gives rs = +inf in floats and
hence RSI = 100 - 100/(1 + inf) = 100. -/
def calculate_rsi (closes : List ℚ) (period : ℕ) : Option ℚ :=
  if closes.length < period then none
  else
    let gain := meanK (gainsList closes) period
    let loss := meanK (lossesList closes) period
    if loss = 0 then (if gain = 0 then none else some 100)
    else some (100 - 100 / (1 + gain / loss))

/-- EMAStrategy.calculate_macd: macd = ema12 - ema26 (span smoothing factors
2/13 and 2/27), signal = ema9 of macd (factor 2/10), histogram = difference. -/
def calculate_macd (closes : List ℚ) : List ℚ × List ℚ × List ℚ :=
  let exp1 := ewmMean (2 / 13) closes
  let exp2 := ewmMean (2 / 27) closes
  let macd := List.zipWith (fun a b => a - b) exp1 exp2
  let signal := ewmMean (2 / 10) macd
  let histogram := List.zipWith (fun a b => a - b) macd signal
  (macd, signal, histogram)

/-- EMAStrategy.check_volume_increase: latest volume strictly above 1.2 times
the mean of the preceding `lookback` volumes; false with too little history. -/
def check_volume_increase (vols : List ℚ) (lookback : ℕ) : Bool :=
  if vols.length < lookback + 1 then false
  else
    let currentVolume := lastD vols
    let avgVolume := meanK vols.dropLast lookback
    decide (avgVolume * (12 / 10) < currentVolume)

/-- EMAStrategy.find_support_resistance: rolling 20-bar min of lows and max of
highs, both `none` when fewer than `window` bars exist. -/
def find_support_resistance (data : List Candle) (window : ℕ) :
    Option ℚ × Option ℚ :=
  if data.length < window then (none, none)
  else
    let resistance := listMax (lastK (data.map Candle.high) window)
    let support := listMin (lastK (data.map Candle.low) window)
    (some support, some resistance)

/-- EMAStrategy.is_near_support_resistance: within `tolerance` relative
distance of either level; `true` when a level is undeterminable. -/
def is_near_support_resistance (price : ℚ) (support resistance : Option ℚ)
    (tolerance : ℚ) : Bool :=
  match support, resistance with
  | some s, some r =>
    decide (|price - s| / price < tolerance) ||
      decide (|price - r| / price < tolerance)
  | _, _ => true

/-- Bullish EMA crossover test of generate_signal:
ema9[-2] <= ema15[-2] and ema9[-1] > ema15[-1]. -/
def bullish_cross (closes : List ℚ) : Bool :=
  let ema9 := calculate_ema closes 9
  let ema15 := calculate_ema closes 15
  decide (prevLastD ema9 ≤ prevLastD ema15) && decide (lastD ema15 < lastD ema9)

/-- Bearish EMA crossover test of generate_signal:
ema9[-2] >= ema15[-2] and ema9[-1] < ema15[-1]. -/
def bearish_cross (closes : List ℚ) : Bool :=
  let ema9 := calculate_ema closes 9
  let ema15 := calculate_ema closes 15
  decide (prevLastD ema15 ≤ prevLastD ema9) && decide (lastD ema9 < lastD ema15)

/-- A trading signal; the Python code uses the strings BUY and SELL,
and `None` (here `Option.none`) for no signal. -/
inductive Sig | buy | sell
deriving DecidableEq

/-- EMAStrategy.generate_signal: `none` with fewer than 30 bars, otherwise the
crossover plus confirmation gate.  A NaN RSI compares `false` both against
70 and against 30, as in floats. -/
def generate_signal (data : List Candle) : Option Sig :=
  if data.length < 30 then none
  else
    let closes := data.map Candle.close
    let ema9 := calculate_ema closes 9
    let rsi := calculate_rsi closes 14
    let macdTriple := calculate_macd closes
    let currentPrice := lastD closes
    let macdCurrent := lastD macdTriple.1
    let macdSignalCurrent := lastD macdTriple.2.1
    let volumeConfirmed := check_volume_increase (data.map Candle.volume) 5
    let sr := find_support_resistance data 20
    let nearKeyLevel :=
      is_near_support_resistance currentPrice sr.1 sr.2 (5 / 1000)
    if bullish_cross closes then
      let rsiOk := match rsi with | some r => decide (r < 70) | none => false
      let macdOk := decide (macdSignalCurrent < macdCurrent)
      let priceAboveEma := decide (lastD ema9 < currentPrice)
      if volumeConfirmed && rsiOk && macdOk && priceAboveEma && nearKeyLevel
      then some Sig.buy else none
    else if bearish_cross closes then
      let rsiOk := match rsi with | some r => decide (30 < r) | none => false
      let macdOk := decide (macdCurrent < macdSignalCurrent)
      let priceBelowEma := decide (currentPrice < lastD ema9)
      if volumeConfirmed && rsiOk && macdOk && priceBelowEma && nearKeyLevel
      then some Sig.sell else none
    else none

/-- EMAStrategy.calculate_position_size: quantity = int(riskAmount / risk)
capped by int(capital / entry); 0 when the risk per share is 0. -/
def calculate_position_size (capital riskPerTrade entryPrice stopLossPrice : ℚ) :
    ℤ :=
  let riskAmount := capital * riskPerTrade
  let riskPerShare := |entryPrice - stopLossPrice|
  if riskPerShare = 0 then 0
  else
    let quantity := pyInt (riskAmount / riskPerShare)
    let maxQuantity := pyInt (capital / entryPrice)
    min quantity maxQuantity

/-- EMAStrategy.calculate_stop_loss_target: stop at the 10-bar swing extreme
nudged by 0.2 percent, target at twice the risk on the other side. -/
def calculate_stop_loss_target (data : List Candle) (sig : Sig) : ℚ × ℚ :=
  let currentPrice := lastD (data.map Candle.close)
  match sig with
  | Sig.buy =>
    let swingLow := listMin (lastK (data.map Candle.low) 10)
    let stopLoss := swingLow * (998 / 1000)
    let risk := currentPrice - stopLoss
    (stopLoss, currentPrice + risk * 2)
  | Sig.sell =>
    let swingHigh := listMax (lastK (data.map Candle.high) 10)
    let stopLoss := swingHigh * (1002 / 1000)
    let risk := stopLoss - currentPrice
    (stopLoss, currentPrice - risk * 2)

/-- Direction of an open position (`self.position` is the string LONG or
SHORT in the source, `None` when flat). -/
inductive Dir | long | short
deriving DecidableEq

/-- The mutable fields of an EMAStrategy instance.  `capital` and
`riskPerTrade` are set by `__init__` and never updated by the engine. -/
structure StratState where
  capital : ℚ
  riskPerTrade : ℚ
  position : Option Dir
  entryPrice : ℚ
  stopLoss : ℚ
  target : ℚ
deriving DecidableEq

/-- EMAStrategy.check_exit_conditions.  `none` models the `IndexError` the
pandas `iloc` accesses raise on too-short data; the stop and target checks
run before the crossover block, exactly as in the source. -/
def check_exit_conditions (st : StratState) (data : List Candle) :
    Option Bool :=
  match st.position with
  | none => some false
  | some dir =>
    if data.length = 0 then none
    else
      let currentPrice := lastD (data.map Candle.close)
      let stopOrTarget :=
        match dir with
        | Dir.long =>
          decide (currentPrice ≤ st.stopLoss) || decide (st.target ≤ currentPrice)
        | Dir.short =>
          decide (st.stopLoss ≤ currentPrice) || decide (currentPrice ≤ st.target)
      if stopOrTarget then some true
      else if data.length < 2 then none
      else
        let closes := data.map Candle.close
        match dir with
        | Dir.long => some (bearish_cross closes)
        | Dir.short => some (bullish_cross closes)

/-- The `current_trade` dictionary run_backtest builds on entry. -/
structure CurTrade where
  signalType : Sig
  entryTime : ℚ
  entryPrice : ℚ
  quantity : ℤ
  stopLoss : ℚ
  target : ℚ
deriving DecidableEq

/-- The trade record run_backtest appends on exit.  The constant string
fields of the source record (symbol, exchange, status, mode) and the
formatted trade id carry no data beyond the bar index and are omitted. -/
structure Trade where
  tradeIndex : ℕ
  signalType : Sig
  entryTime : ℚ
  exitTime : ℚ
  entryPrice : ℚ
  exitPrice : ℚ
  quantity : ℤ
  stopLoss : ℚ
  target : ℚ
  pnl : ℚ
  pnlPercent : ℚ
deriving DecidableEq

/-- The mutable fields of a BacktestEngine instance together with the
`current_trade` loop variable of run_backtest. -/
structure BTState where
  initialCapital : ℚ
  capital : ℚ
  strat : StratState
  trades : List Trade
  equity : List ℚ
  currentTrade : Option CurTrade
deriving DecidableEq

/-- BacktestEngine.__init__ composed with EMAStrategy.__init__. -/
def mkBacktestEngine (initialCap riskPerTrade : ℚ) : BTState :=
  { initialCapital := initialCap
    capital := initialCap
    strat :=
      { capital := initialCap
        riskPerTrade := riskPerTrade
        position := none
        entryPrice := 0
        stopLoss := 0
        target := 0 }
    trades := []
    equity := []
    currentTrade := none }

/-- Unrealized profit and loss of an open trade at the given price. -/
def unrealized (tr : CurTrade) (price : ℚ) : ℚ :=
  match tr.signalType with
  | Sig.buy => (price - tr.entryPrice) * (tr.quantity : ℚ)
  | Sig.sell => (tr.entryPrice - price) * (tr.quantity : ℚ)

/-- Exit phase of one run_backtest loop iteration.  `none` models the
`TypeError` Python raises when `current_trade` is `None` but the strategy
still reports an open position, and the `IndexError` from exit checks on
too-short data.  Persisting to the trade database is an external effect
outside the model. -/
def exitStep (data : List Candle) (st : BTState) (i : ℕ) (candle : Candle) :
    Option BTState :=
  if st.strat.position.isSome then
    match check_exit_conditions st.strat (data.take (i + 1)) with
    | none => none
    | some shouldExit =>
      if shouldExit then
        match st.currentTrade with
        | none => none
        | some tr =>
          let exitPrice := candle.close
          let pnl :=
            match tr.signalType with
            | Sig.buy => (exitPrice - tr.entryPrice) * (tr.quantity : ℚ)
            | Sig.sell => (tr.entryPrice - exitPrice) * (tr.quantity : ℚ)
          let pnlPercent := pnl / (tr.entryPrice * (tr.quantity : ℚ)) * 100
          some
            { st with
              capital := st.capital + pnl
              trades := st.trades ++
                [{ tradeIndex := i
                   signalType := tr.signalType
                   entryTime := tr.entryTime
                   exitTime := candle.timestamp
                   entryPrice := tr.entryPrice
                   exitPrice := exitPrice
                   quantity := tr.quantity
                   stopLoss := tr.stopLoss
                   target := tr.target
                   pnl := pnl
                   pnlPercent := pnlPercent }]
              currentTrade := none
              strat := { st.strat with position := none } }
      else some st
  else some st

/-- Entry phase of one run_backtest loop iteration: consult the signal
generator only when flat, open a position only when the computed quantity
is positive.  Position sizing reads the capital stored in the strategy
object, which the engine never updates after construction. -/
def entryStep (data : List Candle) (st : BTState) (i : ℕ) (candle : Candle) :
    BTState :=
  if st.strat.position = none then
    match generate_signal (data.take (i + 1)) with
    | some sig =>
      let currentPrice := candle.close
      let slt := calculate_stop_loss_target (data.take (i + 1)) sig
      let quantity :=
        calculate_position_size st.strat.capital st.strat.riskPerTrade
          currentPrice slt.1
      if 0 < quantity then
        { st with
          currentTrade := some
            { signalType := sig
              entryTime := candle.timestamp
              entryPrice := currentPrice
              quantity := quantity
              stopLoss := slt.1
              target := slt.2 }
          strat :=
            { st.strat with
              position := some (match sig with
                | Sig.buy => Dir.long
                | Sig.sell => Dir.short)
              entryPrice := currentPrice
              stopLoss := slt.1
              target := slt.2 } }
      else st
    | none => st
  else st

/-- Equity recording phase of one run_backtest loop iteration: append the
mark-to-market equity.  `none` models the `TypeError` raised when the
strategy reports an open position but `current_trade` is `None`. -/
def markStep (st : BTState) (candle : Candle) : Option BTState :=
  if st.strat.position.isSome then
    match st.currentTrade with
    | none => none
    | some tr =>
      some { st with equity := st.equity ++ [st.capital + unrealized tr candle.close] }
  else some { st with equity := st.equity ++ [st.capital] }

/-- One iteration of the run_backtest replay loop at bar index `i`:
exit evaluation, then entry evaluation, then equity recording. -/
def btStep (data : List Candle) (st : BTState) (i : ℕ) : Option BTState :=
  match data.get? i with
  | none => none
  | some candle =>
    match exitStep data st i candle with
    | none => none
    | some st1 => markStep (entryStep data st1 i candle) candle

/-- BacktestEngine.run_backtest: the opening banner reads the first and last
timestamps of the series, which raises IndexError (modelled as `none`) on an
empty series before anything else runs; otherwise reset capital, trades, the
equity curve (seeded with the initial capital) and the local `current_trade`,
then fold the loop body over bar indices 30 .. len-1.  The strategy object
and in particular any leftover `position` from an earlier run is NOT reset. -/
def run_backtest (data : List Candle) (engine : BTState) : Option BTState :=
  if data.length = 0 then none
  else
    let st0 :=
      { engine with
        capital := engine.initialCapital
        trades := []
        equity := [engine.initialCapital]
        currentTrade := none }
    (List.range' 30 (data.length - 30)).foldlM (btStep data) st0

/-- The metrics record calculate_results builds.  The Sharpe ratio of the
source multiplies by sqrt(252) and is irrational, hence not representable
in this rational model; no claim refers to its value and it is omitted. -/
structure BacktestResults where
  totalTrades : ℕ
  winningTrades : ℕ
  losingTrades : ℕ
  winRate : ℚ
  totalPnl : ℚ
  totalPnlPercent : ℚ
  avgWin : ℚ
  avgLoss : ℚ
  largestWin : ℚ
  largestLoss : ℚ
  profitFactor : ℚ
  avgRr : ℚ
  maxDrawdown : ℚ
  expectancy : ℚ
  finalCapital : ℚ
  initialCapital : ℚ
deriving DecidableEq

/-- Running maxima of a list (pandas `expanding().max()`). -/
def runningMax : List ℚ → List ℚ
  | [] => []
  | x :: xs => x :: (runningMax xs).map (fun m => max x m)

/-- BacktestEngine.calculate_results: with no closed trades the source
prints a warning and returns `None`; otherwise it reduces the trade list
and the equity curve to the metrics record. -/
def calculate_results (st : BTState) : Option BacktestResults :=
  if st.trades.length = 0 then none
  else
    let pnls := st.trades.map Trade.pnl
    let totalTrades := st.trades.length
    let winningPnl := pnls.filter (fun p => decide (0 < p))
    let losingPnl := pnls.filter (fun p => decide (p < 0))
    let winningTrades := winningPnl.length
    let losingTrades := losingPnl.length
    let winRate :=
      if 0 < totalTrades then (winningTrades : ℚ) / (totalTrades : ℚ) * 100 else 0
    let totalPnl := pnls.sum
    let totalPnlPercent := (st.capital - st.initialCapital) / st.initialCapital * 100
    let avgWin := if 0 < winningPnl.length then winningPnl.sum / (winningPnl.length : ℚ) else 0
    let avgLoss := if 0 < losingPnl.length then losingPnl.sum / (losingPnl.length : ℚ) else 0
    let largestWin := if 0 < winningPnl.length then listMax winningPnl else 0
    let largestLoss := if 0 < losingPnl.length then listMin losingPnl else 0
    let totalWins := if 0 < winningPnl.length then winningPnl.sum else 0
    let totalLosses := if 0 < losingPnl.length then |losingPnl.sum| else 0
    let profitFactor := if 0 < totalLosses then totalWins / totalLosses else 0
    let avgRr := if avgLoss ≠ 0 then |avgWin / avgLoss| else 0
    let drawdown :=
      List.zipWith (fun e m => (e - m) / m * 100) st.equity (runningMax st.equity)
    let maxDrawdown := listMin drawdown
    let expectancy := winRate / 100 * avgWin - (1 - winRate / 100) * |avgLoss|
    some
      { totalTrades := totalTrades
        winningTrades := winningTrades
        losingTrades := losingTrades
        winRate := winRate
        totalPnl := totalPnl
        totalPnlPercent := totalPnlPercent
        avgWin := avgWin
        avgLoss := avgLoss
        largestWin := largestWin
        largestLoss := largestLoss
        profitFactor := profitFactor
        avgRr := avgRr
        maxDrawdown := maxDrawdown
        expectancy := expectancy
        finalCapital := st.capital
        initialCapital := st.initialCapital }

/-- A default candle, used only to give total indexing functions a value
outside their guarded range. -/
def candle0 : Candle :=
  { timestamp := 0, openP := 0, high := 0, low := 0, close := 0, volume := 0 }

/-- The close price of the candle at index `i`. -/
def closeAt (data : List Candle) (i : ℕ) : ℚ := ((data.get? i).getD candle0).close


/-- The equity value recorded for a bar, in the words of the specification:
realized capital plus unrealized profit and loss when a position is open on
that bar, realized capital alone otherwise.  (On every state reachable from
a fresh engine an open position and a live `current_trade` coincide.) -/
def mark_to_market (st : BTState) (price : ℚ) : ℚ :=
  match st.currentTrade with
  | some tr => st.capital + unrealized tr price
  | none => st.capital

attribute [local semireducible] Rat.add Rat.mul Rat.inv Rat.sub Rat.ofScientific

set_option maxRecDepth 400000

/-- Claim C1: every quantity produced by calculate_position_size with positive
entry price and nonzero price risk keeps the risked amount within the risk
budget (quantity times the per-share risk is at most capital times
riskPerTrade) and keeps the notional within the available capital (quantity
times the entry price is at most capital); the int truncation only ever
reduces the quantity, so both bounds hold exactly. -/
theorem c1_position_size_risk_bounds
    (capital riskPerTrade entryPrice stopLossPrice : ℚ)
    (hcap : 0 ≤ capital) (hrpt : 0 ≤ riskPerTrade) (hentry : 0 < entryPrice)
    (hrisk : 0 < |entryPrice - stopLossPrice|) :
    (calculate_position_size capital riskPerTrade entryPrice stopLossPrice : ℚ) *
        |entryPrice - stopLossPrice| ≤ capital * riskPerTrade ∧
    (calculate_position_size capital riskPerTrade entryPrice stopLossPrice : ℚ) *
        entryPrice ≤ capital := by
  have hq : calculate_position_size capital riskPerTrade entryPrice stopLossPrice =
      min (pyInt (capital * riskPerTrade / |entryPrice - stopLossPrice|))
        (pyInt (capital / entryPrice)) := by
    simp only [calculate_position_size]
    rw [if_neg hrisk.ne']
  rw [hq]
  constructor
  · have hnn : 0 ≤ capital * riskPerTrade / |entryPrice - stopLossPrice| :=
      div_nonneg (mul_nonneg hcap hrpt) hrisk.le
    have h1 : ((min (pyInt (capital * riskPerTrade / |entryPrice - stopLossPrice|))
        (pyInt (capital / entryPrice)) : ℤ) : ℚ) ≤
        capital * riskPerTrade / |entryPrice - stopLossPrice| := by
      calc ((min (pyInt (capital * riskPerTrade / |entryPrice - stopLossPrice|))
          (pyInt (capital / entryPrice)) : ℤ) : ℚ) ≤
          ((pyInt (capital * riskPerTrade / |entryPrice - stopLossPrice|) : ℤ) : ℚ) :=
            Int.cast_le.mpr (min_le_left _ _)
        _ = ((⌊capital * riskPerTrade / |entryPrice - stopLossPrice|⌋ : ℤ) : ℚ) := by
            rw [pyInt, if_pos hnn]
        _ ≤ capital * riskPerTrade / |entryPrice - stopLossPrice| := Int.floor_le _
    exact (le_div_iff₀ hrisk).mp h1
  · have hnn : 0 ≤ capital / entryPrice := div_nonneg hcap hentry.le
    have h1 : ((min (pyInt (capital * riskPerTrade / |entryPrice - stopLossPrice|))
        (pyInt (capital / entryPrice)) : ℤ) : ℚ) ≤ capital / entryPrice := by
      calc ((min (pyInt (capital * riskPerTrade / |entryPrice - stopLossPrice|))
          (pyInt (capital / entryPrice)) : ℤ) : ℚ) ≤
          ((pyInt (capital / entryPrice) : ℤ) : ℚ) :=
            Int.cast_le.mpr (min_le_right _ _)
        _ = ((⌊capital / entryPrice⌋ : ℤ) : ℚ) := by rw [pyInt, if_pos hnn]
        _ ≤ capital / entryPrice := Int.floor_le _
    exact (le_div_iff₀ hentry).mp h1

/-- Witness for C1 at capital 10000, riskPerTrade 2 percent, entry 100,
stop 98: the computed quantity is 100 and both bounds hold. -/
theorem c1_position_size_risk_bounds_witness :
    (0:ℚ) ≤ 10000 ∧ (0:ℚ) ≤ 1/50 ∧ (0:ℚ) < 100 ∧ (0:ℚ) < |100 - (98:ℚ)| ∧
    ((calculate_position_size 10000 (1/50) 100 98 : ℚ) * |100 - (98:ℚ)| ≤
        10000 * (1/50) ∧
      (calculate_position_size 10000 (1/50) 100 98 : ℚ) * 100 ≤ 10000) :=
  ⟨by norm_num, by norm_num, by norm_num, by decide,
    c1_position_size_risk_bounds 10000 (1/50) 100 98 (by norm_num) (by norm_num)
      (by norm_num) (by decide)⟩

/-- Claim C3: with fewer than 30 bars generate_signal always returns no
signal; a backtest run over a series of at most 30 bars never closes a trade
(zero Trades whenever the run completes, the replay loop never executing a
bar), and on every nonempty such series the run completes cleanly with an
empty trade list.  (On the empty series the source raises IndexError in the
opening banner before the loop, modelled as `none`.) -/
theorem c3_warmup_no_signal_no_trades :
    (∀ data : List Candle, data.length < 30 → generate_signal data = none) ∧
    (∀ (cap rpt : ℚ) (data : List Candle) (s : BTState), data.length ≤ 30 →
      run_backtest data (mkBacktestEngine cap rpt) = some s → s.trades = []) ∧
    (∀ (cap rpt : ℚ) (data : List Candle), 1 ≤ data.length →
      data.length ≤ 30 →
      ∃ s, run_backtest data (mkBacktestEngine cap rpt) = some s ∧
        s.trades = []) := by
  refine ⟨?_, ?_, ?_⟩
  · intro data h
    simp only [generate_signal]
    rw [if_pos h]
  · intro cap rpt data s h hrun
    simp only [run_backtest] at hrun
    by_cases h0 : data.length = 0
    · rw [if_pos h0] at hrun
      exact absurd hrun (by simp)
    · rw [if_neg h0, Nat.sub_eq_zero_of_le h] at hrun
      obtain rfl := Option.some.inj hrun
      rfl
  · intro cap rpt data h1 h30
    refine ⟨{ initialCapital := cap, capital := cap
              strat := { capital := cap, riskPerTrade := rpt, position := none
                         entryPrice := 0, stopLoss := 0, target := 0 }
              trades := [], equity := [cap], currentTrade := none }, ?_, rfl⟩
    simp only [run_backtest]
    rw [if_neg (by omega : ¬data.length = 0), Nat.sub_eq_zero_of_le h30]
    rfl

/-- Witness for C3 on a 29-bar constant series: no signal, the run completes
cleanly, and its trade list is empty. -/
theorem c3_warmup_no_signal_no_trades_witness :
    (List.replicate 29 candle0).length < 30 ∧
    generate_signal (List.replicate 29 candle0) = none ∧
    1 ≤ (List.replicate 29 candle0).length ∧
    (List.replicate 29 candle0).length ≤ 30 ∧
    ∃ s, run_backtest (List.replicate 29 candle0) (mkBacktestEngine 10000 (1/50)) =
        some s ∧ s.trades = [] := by
  obtain ⟨s, hs, _⟩ := c3_warmup_no_signal_no_trades.2.2 10000 (1/50)
    (List.replicate 29 candle0) (by decide) (by decide)
  exact ⟨by decide, c3_warmup_no_signal_no_trades.1 (List.replicate 29 candle0)
      (by decide), by decide, by decide,
    ⟨s, hs, c3_warmup_no_signal_no_trades.2.1 10000 (1/50)
      (List.replicate 29 candle0) s (by decide) hs⟩⟩

/-- Claim C4: on a series of at least two bars with an open LONG position,
check_exit_conditions reports an exit exactly when the close is at or below
the stop, at or above the target, or a bearish EMA crossover occurs on the
latest bar; for SHORT the mirror conditions hold. -/
theorem c4_exit_conditions_iff (st : StratState) (data : List Candle)
    (h2 : 2 ≤ data.length) :
    (st.position = some Dir.long →
      (check_exit_conditions st data = some true ↔
        (lastD (data.map Candle.close) ≤ st.stopLoss ∨
          st.target ≤ lastD (data.map Candle.close) ∨
          bearish_cross (data.map Candle.close) = true))) ∧
    (st.position = some Dir.short →
      (check_exit_conditions st data = some true ↔
        (st.stopLoss ≤ lastD (data.map Candle.close) ∨
          lastD (data.map Candle.close) ≤ st.target ∨
          bullish_cross (data.map Candle.close) = true))) := by
  constructor
  · intro hpos
    simp only [check_exit_conditions, hpos]
    rw [if_neg (by omega : ¬data.length = 0)]
    by_cases hst : (decide (lastD (data.map Candle.close) ≤ st.stopLoss) ||
        decide (st.target ≤ lastD (data.map Candle.close))) = true
    · rw [if_pos hst]
      simp only [Bool.or_eq_true, decide_eq_true_eq] at hst
      simp only [Option.some.injEq]
      tauto
    · rw [if_neg hst]
      rw [if_neg (by omega : ¬data.length < 2)]
      simp only [Bool.or_eq_true, decide_eq_true_eq, not_or] at hst
      simp only [Option.some.injEq]
      tauto
  · intro hpos
    simp only [check_exit_conditions, hpos]
    rw [if_neg (by omega : ¬data.length = 0)]
    by_cases hst : (decide (st.stopLoss ≤ lastD (data.map Candle.close)) ||
        decide (lastD (data.map Candle.close) ≤ st.target)) = true
    · rw [if_pos hst]
      simp only [Bool.or_eq_true, decide_eq_true_eq] at hst
      simp only [Option.some.injEq]
      tauto
    · rw [if_neg hst]
      rw [if_neg (by omega : ¬data.length < 2)]
      simp only [Bool.or_eq_true, decide_eq_true_eq, not_or] at hst
      simp only [Option.some.injEq]
      tauto

/-- A candle whose four prices all equal `c`. -/
def mkFlatCandle (t c v : ℚ) : Candle :=
  { timestamp := t, openP := c, high := c, low := c, close := c, volume := v }

/-- A strategy state holding a LONG position with stop 95 and target 110. -/
def longState : StratState :=
  { capital := 10000, riskPerTrade := 1/50, position := some Dir.long
    entryPrice := 100, stopLoss := 95, target := 110 }

/-- A two-bar series whose second close 94 breaches the stop of `longState`. -/
def twoBarDrop : List Candle := [mkFlatCandle 0 100 100, mkFlatCandle 1 94 100]

/-- Witness for C4: on `twoBarDrop` with the open LONG of `longState`,
check_exit_conditions fires and the close is indeed at or below the stop. -/
theorem c4_exit_conditions_iff_witness :
    2 ≤ twoBarDrop.length ∧
    (check_exit_conditions longState twoBarDrop = some true ↔
      (lastD (twoBarDrop.map Candle.close) ≤ longState.stopLoss ∨
        longState.target ≤ lastD (twoBarDrop.map Candle.close) ∨
        bearish_cross (twoBarDrop.map Candle.close) = true)) :=
  ⟨by decide, (c4_exit_conditions_iff longState twoBarDrop (by decide)).1 rfl⟩

/-- Close prices of a 31-bar series: nine flat bars at 100, a steady decline
of a quarter point per bar down to 95.25, then three rising bars (+2.25, +2,
+0.5) back to 100, producing a bullish EMA crossover with moderate RSI on
the final bar. -/
def exCloses : List ℚ :=
  [100, 100, 100, 100, 100, 100, 100, 100, 100,
   399/4, 199/2, 397/4, 99, 395/4, 197/2, 393/4, 98, 391/4, 195/2,
   389/4, 97, 387/4, 193/2, 385/4, 96, 383/4, 191/2, 381/4,
   195/2, 199/2, 100]

/-- The 31-bar series itself: open, high and low coincide with the close,
volume is flat at 100 with a surge to 200 on the final bar, so that the full
generate_signal entry gate passes exactly on bar 30 and the backtest opens a
LONG position on the last processed bar. -/
def exData : List Candle :=
  (List.zip (List.range 31) exCloses).map fun p =>
    mkFlatCandle (p.1 : ℚ) p.2 (if p.1 = 30 then 200 else 100)

/-- Counterexample to C5 as stated: a BUY sizing with entry 100 below the
stop 102 has risk (entry minus stop) of -2, which is nonpositive, yet
calculate_position_size works on the absolute difference and returns the
positive quantity 100 instead of 0. -/
theorem c5_risk_nonpositive_counterexample :
    (100:ℚ) - 102 ≤ 0 ∧ calculate_position_size 10000 (1/50) 100 102 ≠ 0 := by
  decide

/-- Claim C5 amended: when the risk is exactly zero (entry price equal to the
computed stop), the computed quantity is 0, and the backtest entry phase
opens no position when the computed quantity is 0; both are ordinary results,
not errors.  (With strictly negative risk, entry below the stop for a BUY,
the source sizes the trade on the absolute difference and can return a
positive quantity.) -/
theorem c5_zero_risk_no_trade :
    (∀ capital riskPerTrade entryPrice stopLossPrice : ℚ,
      entryPrice = stopLossPrice →
      calculate_position_size capital riskPerTrade entryPrice stopLossPrice = 0) ∧
    (∀ (data : List Candle) (st : BTState) (i : ℕ) (candle : Candle) (sig : Sig),
      st.strat.position = none →
      generate_signal (data.take (i + 1)) = some sig →
      calculate_position_size st.strat.capital st.strat.riskPerTrade candle.close
        (calculate_stop_loss_target (data.take (i + 1)) sig).1 = 0 →
      (entryStep data st i candle).strat.position = none) := by
  constructor
  · intro capital riskPerTrade entryPrice stopLossPrice h
    simp only [calculate_position_size, h]
    simp
  · intro data st i candle sig hpos hsig hq
    simp only [entryStep, hpos, hsig, hq]
    simp [hpos]

/-- Witness for C5: entry equal to stop gives quantity 0, and on the concrete
31-bar series with a 1-unit-capital engine the BUY signal on bar 30 sizes to
quantity 0 and the entry phase leaves the position flat. -/
theorem c5_zero_risk_no_trade_witness :
    calculate_position_size 10000 (1/50) 100 100 = 0 ∧
    (mkBacktestEngine 1 (1/50)).strat.position = none ∧
    generate_signal (exData.take (30 + 1)) = some Sig.buy ∧
    calculate_position_size (mkBacktestEngine 1 (1/50)).strat.capital
      (mkBacktestEngine 1 (1/50)).strat.riskPerTrade (mkFlatCandle 30 100 200).close
      (calculate_stop_loss_target (exData.take (30 + 1)) Sig.buy).1 = 0 ∧
    (entryStep exData (mkBacktestEngine 1 (1/50)) 30 (mkFlatCandle 30 100 200)).strat.position
      = none := by
  have hsig : generate_signal (exData.take (30 + 1)) = some Sig.buy := by decide
  have hq : calculate_position_size (mkBacktestEngine 1 (1/50)).strat.capital
      (mkBacktestEngine 1 (1/50)).strat.riskPerTrade (mkFlatCandle 30 100 200).close
      (calculate_stop_loss_target (exData.take (30 + 1)) Sig.buy).1 = 0 := by decide
  exact ⟨c5_zero_risk_no_trade.1 10000 (1/50) 100 100 rfl, rfl, hsig, hq,
    c5_zero_risk_no_trade.2 exData (mkBacktestEngine 1 (1/50)) 30
      (mkFlatCandle 30 100 200) Sig.buy rfl hsig hq⟩

/-- Counterexample to C7 as stated: on a fresh engine with zero closed
trades, calculate_results returns no results object at all (the source
prints a warning and returns None) instead of a results object with zero
ratios. -/
theorem c7_zero_trades_counterexample :
    (mkBacktestEngine 10000 (1/50)).trades = [] ∧
    calculate_results (mkBacktestEngine 10000 (1/50)) = none := by
  exact ⟨rfl, rfl⟩

/-- Claim C7 amended: when zero trades were closed, calculate_results signals
the absence of statistics by returning None (after printing a warning)
rather than a results object; the zero-division defaults of the individual
ratios apply only inside a nonempty results object. -/
theorem c7_zero_trades_returns_none (st : BTState) (h : st.trades = []) :
    calculate_results st = none := by
  simp [calculate_results, h]

/-- Witness for C7 on a fresh engine with capital 5000. -/
theorem c7_zero_trades_returns_none_witness :
    (mkBacktestEngine 5000 (1/100)).trades = [] ∧
    calculate_results (mkBacktestEngine 5000 (1/100)) = none :=
  ⟨rfl, c7_zero_trades_returns_none (mkBacktestEngine 5000 (1/100)) rfl⟩

/-- Counterexample to C8 as stated: over a constant 30-bar close window the
trailing average loss is 0, but the computed RSI is NaN (the float quotient
0/0), not 100. -/
theorem c8_rsi_zero_loss_counterexample :
    meanK (lossesList (List.replicate 30 (100:ℚ))) 14 = 0 ∧
    calculate_rsi (List.replicate 30 (100:ℚ)) 14 ≠ some 100 := by
  decide

/-- Claim C8 amended: over any window of at least 14 bars whose trailing
average loss is 0 and whose trailing average gain is positive, the computed
RSI is exactly 100 (the float quotient is +inf and 100 - 100/(1 + inf) =
100), with no fault; when the average gain is also 0 the RSI is NaN, which
the signal path compares as an ordinary non-signaling value. -/
theorem c8_rsi_zero_loss_is_100 (closes : List ℚ) (h : 14 ≤ closes.length)
    (hl : meanK (lossesList closes) 14 = 0)
    (hg : 0 < meanK (gainsList closes) 14) :
    calculate_rsi closes 14 = some 100 := by
  simp only [calculate_rsi]
  rw [if_neg (by omega : ¬closes.length < 14), if_pos hl, if_neg hg.ne']

/-- Witness for C8: fifteen flat bars followed by one up bar has zero
average loss, positive average gain, and RSI exactly 100. -/
theorem c8_rsi_zero_loss_is_100_witness :
    14 ≤ (List.replicate 15 (100:ℚ) ++ [101]).length ∧
    meanK (lossesList (List.replicate 15 (100:ℚ) ++ [101])) 14 = 0 ∧
    0 < meanK (gainsList (List.replicate 15 (100:ℚ) ++ [101])) 14 ∧
    calculate_rsi (List.replicate 15 (100:ℚ) ++ [101]) 14 = some 100 :=
  ⟨by decide, by decide, by decide,
    c8_rsi_zero_loss_is_100 (List.replicate 15 (100:ℚ) ++ [101]) (by decide)
      (by decide) (by decide)⟩

/-- Claim C10: with the 30-bar warm-up satisfied the 20-bar rolling
support/resistance levels are always computable (never None), so the
default-pass branch of is_near_support_resistance is unreachable from the
signal path: every emitted BUY or SELL was tested against the concrete
levels and found within half a percent of one of them. -/
theorem c10_levels_always_concrete :
    (∀ data : List Candle, 30 ≤ data.length →
      ∃ sup res, find_support_resistance data 20 = (some sup, some res)) ∧
    (∀ (data : List Candle) (sig : Sig), generate_signal data = some sig →
      ∃ sup res, find_support_resistance data 20 = (some sup, some res) ∧
        (|lastD (data.map Candle.close) - sup| / lastD (data.map Candle.close)
            < 5/1000 ∨
          |lastD (data.map Candle.close) - res| / lastD (data.map Candle.close)
            < 5/1000)) := by
  have key : ∀ data : List Candle, ¬data.length < 20 →
      find_support_resistance data 20 =
        (some (listMin (lastK (data.map Candle.low) 20)),
          some (listMax (lastK (data.map Candle.high) 20))) := by
    intro data h20
    simp only [find_support_resistance]
    rw [if_neg h20]
  constructor
  · intro data h30
    exact ⟨_, _, key data (by omega)⟩
  · intro data sig h
    by_cases hlen : data.length < 30
    · rw [generate_signal, if_pos hlen] at h
      exact absurd h (by simp)
    · have h20 : ¬data.length < 20 := by omega
      have hsr := key data h20
      refine ⟨_, _, hsr, ?_⟩
      rw [generate_signal, if_neg hlen] at h
      simp only [hsr] at h
      split at h
      · split at h
        · rename_i hc
          simp only [Bool.and_eq_true] at hc
          have hn := hc.2
          simpa only [is_near_support_resistance, Bool.or_eq_true,
            decide_eq_true_eq] using hn
        · exact absurd h (by simp)
      · split at h
        · split at h
          · rename_i hc
            simp only [Bool.and_eq_true] at hc
            have hn := hc.2
            simpa only [is_near_support_resistance, Bool.or_eq_true,
              decide_eq_true_eq] using hn
          · exact absurd h (by simp)
        · exact absurd h (by simp)

/-- Witness for C10 on the concrete 31-bar series: the levels are concrete
and the BUY emitted on the last bar passed the concrete proximity check. -/
theorem c10_levels_always_concrete_witness :
    30 ≤ exData.length ∧
    (∃ sup res, find_support_resistance exData 20 = (some sup, some res)) ∧
    generate_signal exData = some Sig.buy ∧
    (∃ sup res, find_support_resistance exData 20 = (some sup, some res) ∧
      (|lastD (exData.map Candle.close) - sup| / lastD (exData.map Candle.close)
          < 5/1000 ∨
        |lastD (exData.map Candle.close) - res| / lastD (exData.map Candle.close)
          < 5/1000)) := by
  have hsig : generate_signal exData = some Sig.buy := by decide
  exact ⟨by decide, c10_levels_always_concrete.1 exData (by decide), hsig,
    c10_levels_always_concrete.2 exData Sig.buy hsig⟩

/-- Claim C2, evidence of the code bug: on the concrete 31-bar series the
first run_backtest on a fresh engine succeeds, closes no trade and leaves the
strategy holding an open LONG position; run_backtest does not reset that
position, so the second run on the same engine hits a bar where the strategy
reports a position while the run-local current_trade is None and crashes with
a TypeError (modelled as `none`) instead of reproducing the first run. -/
theorem c2_second_run_crashes :
    (run_backtest exData (mkBacktestEngine 10000 (1/50))).map
        (fun s => (s.strat.position, s.trades.length)) = some (some Dir.long, 0) ∧
    (run_backtest exData (mkBacktestEngine 10000 (1/50))).bind
        (fun s => run_backtest exData s) = none := by
  decide

lemma check_exit_conditions_isSome (st : StratState) (data : List Candle)
    (h2 : 2 ≤ data.length) : (check_exit_conditions st data).isSome := by
  rcases hpos : st.position with _ | dir
  · simp [check_exit_conditions, hpos]
  · simp only [check_exit_conditions, hpos]
    rw [if_neg (by omega : ¬data.length = 0)]
    split_ifs with hA hB
    · simp
    · omega
    · cases dir <;> simp

lemma exitStep_spec (data : List Candle) (st : BTState) (i : ℕ) (candle : Candle)
    (h2 : 2 ≤ (data.take (i + 1)).length)
    (hinv : st.strat.position.isSome ↔ st.currentTrade.isSome) :
    (exitStep data st i candle).isSome = true ∧
    ∀ st1, exitStep data st i candle = some st1 →
      ((st1.strat.position.isSome ↔ st1.currentTrade.isSome) ∧
        st1.equity = st.equity) := by
  rcases hpos : st.strat.position with _ | dir
  · constructor
    · simp [exitStep, hpos]
    · intro st1 h
      simp only [exitStep, hpos, Option.isSome_none, Bool.false_eq_true,
        if_false] at h
      obtain rfl := Option.some.inj h
      exact ⟨hinv, rfl⟩
  · obtain ⟨tr, htr⟩ := Option.isSome_iff_exists.mp (hinv.mp (by simp [hpos]))
    obtain ⟨b, hb⟩ := Option.isSome_iff_exists.mp
      (check_exit_conditions_isSome st.strat (data.take (i + 1)) h2)
    cases b
    · constructor
      · simp [exitStep, hpos, hb]
      · intro st1 h
        simp only [exitStep, hpos, Option.isSome_some, if_true, hb,
          Bool.false_eq_true, if_false] at h
        obtain rfl := Option.some.inj h
        exact ⟨hinv, rfl⟩
    · constructor
      · simp [exitStep, hpos, hb, htr]
      · intro st1 h
        simp only [exitStep, hpos, Option.isSome_some, if_true, hb, htr] at h
        obtain rfl := Option.some.inj h
        exact ⟨by simp, rfl⟩

lemma entryStep_spec (data : List Candle) (st : BTState) (i : ℕ) (candle : Candle)
    (hinv : st.strat.position.isSome ↔ st.currentTrade.isSome) :
    ((entryStep data st i candle).strat.position.isSome ↔
      (entryStep data st i candle).currentTrade.isSome) ∧
    (entryStep data st i candle).equity = st.equity := by
  by_cases hpos : st.strat.position = none
  · rcases hsig : generate_signal (data.take (i + 1)) with _ | sig
    · simp only [entryStep, hpos, if_true, hsig]
      constructor
      · rw [hpos] at hinv
        exact hinv
      · trivial
    · simp only [entryStep, hpos, if_true, hsig]
      split_ifs with hq
      · constructor
        · simp
        · trivial
      · constructor
        · exact hinv
        · trivial
  · simp only [entryStep, hpos, if_false]
    constructor
    · exact hinv
    · trivial

lemma markStep_eq (st : BTState) (candle : Candle)
    (hinv : st.strat.position.isSome ↔ st.currentTrade.isSome) :
    markStep st candle =
      some { st with equity := st.equity ++ [mark_to_market st candle.close] } := by
  rcases hpos : st.strat.position with _ | dir
  · have htr : st.currentTrade = none := by
      rcases h : st.currentTrade with _ | tr
      · rfl
      · have h2 := hinv.mpr (by simp [h])
        rw [hpos] at h2
        simp at h2
    simp [markStep, hpos, mark_to_market, htr]
  · obtain ⟨tr, htr⟩ := Option.isSome_iff_exists.mp (hinv.mp (by simp [hpos]))
    simp [markStep, hpos, htr, mark_to_market]

lemma btStep_spec (data : List Candle) (st : BTState) (i : ℕ)
    (hi : i < data.length) (h1 : 1 ≤ i)
    (hinv : st.strat.position.isSome ↔ st.currentTrade.isSome) :
    ∃ st', btStep data st i = some st' ∧
      (st'.strat.position.isSome ↔ st'.currentTrade.isSome) ∧
      st'.equity = st.equity ++ [mark_to_market st' (closeAt data i)] := by
  have hget : data.get? i = some (data.get ⟨i, hi⟩) := List.get?_eq_get hi
  have h2 : 2 ≤ (data.take (i + 1)).length := by
    simp only [List.length_take]
    omega
  obtain ⟨hsome, hchar⟩ := exitStep_spec data st i (data.get ⟨i, hi⟩) h2 hinv
  obtain ⟨st1, hexit⟩ := Option.isSome_iff_exists.mp hsome
  obtain ⟨hinv1, hequ1⟩ := hchar st1 hexit
  obtain ⟨hinv2, hequ2⟩ := entryStep_spec data st1 i (data.get ⟨i, hi⟩) hinv1
  have hmark := markStep_eq (entryStep data st1 i (data.get ⟨i, hi⟩))
    (data.get ⟨i, hi⟩) hinv2
  have hclose : closeAt data i = (data.get ⟨i, hi⟩).close := by
    simp only [closeAt, hget, Option.getD_some]
  refine ⟨_, by simp only [btStep, hget, hexit]; exact hmark, by simpa using hinv2, ?_⟩
  show (entryStep data st1 i (data.get ⟨i, hi⟩)).equity ++
      [mark_to_market (entryStep data st1 i (data.get ⟨i, hi⟩)) (data.get ⟨i, hi⟩).close] =
    st.equity ++ [mark_to_market (entryStep data st1 i (data.get ⟨i, hi⟩)) (closeAt data i)]
  rw [hclose, hequ2, hequ1]

lemma btRun_equity (data : List Candle) :
    ∀ (idxs : List ℕ) (st : BTState),
      (∀ j ∈ idxs, j < data.length ∧ 1 ≤ j) →
      (st.strat.position.isSome ↔ st.currentTrade.isSome) →
      ∃ (s : BTState) (states : List BTState),
        idxs.foldlM (btStep data) st = some s ∧
        states.length = idxs.length ∧
        s.equity = st.equity ++
          List.zipWith (fun t j => mark_to_market t (closeAt data j)) states idxs := by
  intro idxs
  induction idxs with
  | nil =>
    intro st _ hinv
    exact ⟨st, [], rfl, rfl, by simp⟩
  | cons j js ih =>
    intro st hb hinv
    obtain ⟨hj, h1⟩ := hb j (by simp)
    obtain ⟨st', hstep, hinv', hequ⟩ := btStep_spec data st j hj h1 hinv
    obtain ⟨s, states, hf, hlen, he⟩ := ih st' (fun k hk => hb k (by simp [hk])) hinv'
    refine ⟨s, st' :: states, ?_, by simp [hlen], ?_⟩
    · rw [List.foldlM_cons, hstep]
      simpa using hf
    · rw [he, hequ]
      simp [List.append_assoc]

/-- Claim C9 amended: after run_backtest on a fresh engine over n > 30 bars
the equity curve is the initial capital followed by exactly one point per
processed bar (n - 30 of them, n - 30 + 1 in total), the point of each bar
being the mark-to-market equity of the state on that bar: realized capital
plus unrealized profit and loss when a position is open, realized capital
alone otherwise. -/
theorem c9_equity_curve (cap rpt : ℚ) (data : List Candle)
    (h : 30 < data.length) :
    ∃ (s : BTState) (states : List BTState),
      run_backtest data (mkBacktestEngine cap rpt) = some s ∧
      states.length = data.length - 30 ∧
      s.equity = cap :: List.zipWith (fun t j => mark_to_market t (closeAt data j))
          states (List.range' 30 (data.length - 30)) ∧
      s.equity.length = data.length - 30 + 1 := by
  have hbounds : ∀ j ∈ List.range' 30 (data.length - 30),
      j < data.length ∧ 1 ≤ j := by
    intro j hj
    rw [List.mem_range'_1] at hj
    omega
  obtain ⟨s, states, hf, hlen, he⟩ := btRun_equity data
    (List.range' 30 (data.length - 30))
    { initialCapital := cap, capital := cap
      strat := { capital := cap, riskPerTrade := rpt, position := none
                 entryPrice := 0, stopLoss := 0, target := 0 }
      trades := [], equity := [cap], currentTrade := none } hbounds (by simp)
  refine ⟨s, states, ?_, ?_, ?_, ?_⟩
  · simp only [run_backtest]
    rw [if_neg (by omega : ¬data.length = 0)]
    exact hf
  · rw [hlen, List.length_range']
  · simpa using he
  · rw [he]
    simp only [List.length_append, List.length_zipWith, hlen,
      List.length_range', List.length_cons, List.length_nil, Nat.min_self]
    omega

/-- A 31-bar constant series: no crossover, so the backtest records equity
without ever trading. -/
def flat31 : List Candle := List.replicate 31 (mkFlatCandle 0 100 100)

/-- Witness for C9 on the constant 31-bar series. -/
theorem c9_equity_curve_witness :
    30 < flat31.length ∧
    ∃ (s : BTState) (states : List BTState),
      run_backtest flat31 (mkBacktestEngine 10000 (1/50)) = some s ∧
      states.length = flat31.length - 30 ∧
      s.equity = 10000 :: List.zipWith (fun t j => mark_to_market t (closeAt flat31 j))
          states (List.range' 30 (flat31.length - 30)) ∧
      s.equity.length = flat31.length - 30 + 1 :=
  ⟨by decide, c9_equity_curve 10000 (1/50) flat31 (by decide)⟩

/-- Counterexample to C9 as stated: on a 31-bar series one bar is processed,
yet the recorded equity curve has 2 points (the curve is seeded with the
initial capital before the loop), not 31 - 30 = 1. -/
theorem c9_point_count_counterexample :
    (run_backtest flat31 (mkBacktestEngine 10000 (1/50))).map
        (fun s => s.equity.length) = some 2 ∧
    flat31.length - 30 = 1 ∧ (2 : ℕ) ≠ 1 := by
  decide

lemma emaScan_length (a : ℚ) (xs : List ℚ) :
    ∀ p : ℚ, (emaScan a p xs).length = xs.length := by
  induction xs with
  | nil => intro p; rfl
  | cons x rest ih => intro p; simp [emaScan, ih]

lemma ewmMean_length (a : ℚ) (xs : List ℚ) :
    (ewmMean a xs).length = xs.length := by
  cases xs with
  | nil => rfl
  | cons x rest => simp [ewmMean, emaScan_length]

lemma emaScan_mono (aS aF : ℚ) (h0 : 0 ≤ aS) (hSF : aS ≤ aF) (h1 : aF ≤ 1) :
    ∀ (xs : List ℚ) (pS pF c : ℚ), pS ≤ pF → pS ≤ c → pF ≤ c →
      List.Chain (· < ·) c xs →
      ∀ (i : ℕ) (hS : i < (emaScan aS pS xs).length)
        (hF : i < (emaScan aF pF xs).length),
        (emaScan aS pS xs).get ⟨i, hS⟩ ≤ (emaScan aF pF xs).get ⟨i, hF⟩ := by
  intro xs
  induction xs with
  | nil =>
    intro pS pF c _ _ _ _ i hS _
    simp [emaScan] at hS
  | cons x rest ih =>
    intro pS pF c hpp hpSc hpFc hch i hS hF
    rw [List.chain_cons] at hch
    obtain ⟨hcx, hch2⟩ := hch
    have hySF : (1 - aS) * pS + aS * x ≤ (1 - aF) * pF + aF * x := by
      nlinarith [mul_nonneg (by linarith : (0:ℚ) ≤ 1 - aF)
          (by linarith : (0:ℚ) ≤ pF - pS),
        mul_nonneg (by linarith : (0:ℚ) ≤ aF - aS)
          (by linarith : (0:ℚ) ≤ x - pS)]
    have hySx : (1 - aS) * pS + aS * x ≤ x := by
      nlinarith [mul_nonneg (by linarith : (0:ℚ) ≤ 1 - aS)
        (by linarith : (0:ℚ) ≤ x - pS)]
    have hyFx : (1 - aF) * pF + aF * x ≤ x := by
      nlinarith [mul_nonneg (by linarith : (0:ℚ) ≤ 1 - aF)
        (by linarith : (0:ℚ) ≤ x - pF)]
    match i with
    | 0 => simpa [emaScan] using hySF
    | Nat.succ j =>
      have hS2 : j < (emaScan aS ((1 - aS) * pS + aS * x) rest).length := by
        simp only [emaScan_length]
        simpa [emaScan, emaScan_length] using hS
      have hF2 : j < (emaScan aF ((1 - aF) * pF + aF * x) rest).length := by
        simp only [emaScan_length]
        simpa [emaScan, emaScan_length] using hF
      have := ih ((1 - aS) * pS + aS * x) ((1 - aF) * pF + aF * x) x
        hySF hySx hyFx hch2 j hS2 hF2
      simpa [emaScan] using this

lemma ewmMean_mono (aS aF : ℚ) (h0 : 0 ≤ aS) (hSF : aS ≤ aF) (h1 : aF ≤ 1)
    (xs : List ℚ) (hch : List.Chain' (· < ·) xs) :
    ∀ (i : ℕ) (hS : i < (ewmMean aS xs).length) (hF : i < (ewmMean aF xs).length),
      (ewmMean aS xs).get ⟨i, hS⟩ ≤ (ewmMean aF xs).get ⟨i, hF⟩ := by
  cases xs with
  | nil =>
    intro i hS _
    simp [ewmMean] at hS
  | cons x rest =>
    intro i hS hF
    match i with
    | 0 => simp [ewmMean]
    | Nat.succ j =>
      have hch2 : List.Chain (· < ·) x rest := hch
      have hS2 : j < (emaScan aS x rest).length := by
        simpa [ewmMean, emaScan_length] using hS
      have hF2 : j < (emaScan aF x rest).length := by
        simpa [ewmMean, emaScan_length] using hF
      have := emaScan_mono aS aF h0 hSF h1 rest x x x le_rfl le_rfl le_rfl
        hch2 j hS2 hF2
      simpa [ewmMean] using this

lemma emaScan_neg (a : ℚ) (xs : List ℚ) :
    ∀ p : ℚ, emaScan a (-p) (xs.map (fun y => -y)) =
      (emaScan a p xs).map (fun y => -y) := by
  induction xs with
  | nil => intro p; rfl
  | cons x rest ih =>
    intro p
    simp only [List.map_cons, emaScan]
    rw [show (1 - a) * -p + a * -x = -((1 - a) * p + a * x) by ring]
    rw [ih]

lemma ewmMean_neg (a : ℚ) (xs : List ℚ) :
    ewmMean a (xs.map (fun y => -y)) = (ewmMean a xs).map (fun y => -y) := by
  cases xs with
  | nil => rfl
  | cons x rest =>
    simp only [List.map_cons, ewmMean]
    rw [emaScan_neg]

lemma listGetD_eq_get (l : List ℚ) (t : ℕ) (h : t < l.length) :
    l.getD t 0 = l.get ⟨t, h⟩ := by
  simp [List.getD, List.getElem?_eq_getElem h]

lemma lastD_eq_get (l : List ℚ) (h : l ≠ []) :
    lastD l = l.get ⟨l.length - 1, Nat.sub_lt (List.length_pos.mpr h) Nat.one_pos⟩ := by
  rw [lastD, List.getLast?_eq_getLast_of_ne_nil h, Option.getD_some,
    List.getLast_eq_getElem]
  simp [List.get_eq_getElem]

lemma calculate_ema_length (closes : List ℚ) (p : ℕ) :
    (calculate_ema closes p).length = closes.length := ewmMean_length _ _

lemma calc_ema_slow_le_fast (closes : List ℚ)
    (hch : List.Chain' (· < ·) closes) (t : ℕ) (ht : t < closes.length) :
    (calculate_ema closes 15).getD t 0 ≤ (calculate_ema closes 9).getD t 0 := by
  have h15 : t < (calculate_ema closes 15).length := by
    rw [calculate_ema_length]; exact ht
  have h9 : t < (calculate_ema closes 9).length := by
    rw [calculate_ema_length]; exact ht
  rw [listGetD_eq_get _ _ h15, listGetD_eq_get _ _ h9]
  exact ewmMean_mono (2 / (((15:ℕ):ℚ) + 1)) (2 / (((9:ℕ):ℚ) + 1))
    (by norm_num) (by norm_num) (by norm_num) closes hch t h15 h9

lemma calc_ema_fast_le_slow (closes : List ℚ)
    (hch : List.Chain' (· > ·) closes) (t : ℕ) (ht : t < closes.length) :
    (calculate_ema closes 9).getD t 0 ≤ (calculate_ema closes 15).getD t 0 := by
  have hneg : List.Chain' (· < ·) (closes.map (fun y => -y)) := by
    rw [List.chain'_map]
    exact hch.imp fun {a b} hab => neg_lt_neg hab
  have hslow := calc_ema_slow_le_fast (closes.map fun y => -y) hneg t
    (by simpa using ht)
  have hm : ∀ p : ℕ, calculate_ema (closes.map fun y => -y) p =
      (calculate_ema closes p).map (fun y => -y) := fun p => ewmMean_neg _ _
  rw [hm, hm] at hslow
  have hg : ∀ (l : List ℚ), t < l.length →
      (l.map (fun y => -y)).getD t 0 = -(l.getD t 0) := by
    intro l h
    rw [listGetD_eq_get _ _ (by simpa using h : t < (l.map (fun y => -y)).length),
      listGetD_eq_get _ _ h]
    simp [List.get_eq_getElem]
  rw [hg _ (by rw [calculate_ema_length]; exact ht),
    hg _ (by rw [calculate_ema_length]; exact ht)] at hslow
  linarith

lemma lastD_eq_getD (l : List ℚ) (h : l ≠ []) :
    lastD l = l.getD (l.length - 1) 0 := by
  rw [lastD_eq_get l h, ← listGetD_eq_get]

/-- Claim C6: on a strictly increasing close series past the warm-up window
the fast EMA stays at or above the slow EMA at every bar under the
adjust=False recurrence seeded at the first close, so no bearish crossover
is detected at any bar and generate_signal never returns SELL; symmetrically
a strictly decreasing series admits no bullish crossover and never a BUY. -/
theorem c6_monotone_no_opposite_signal (data : List Candle)
    (hlen : 30 < data.length) :
    (List.Chain' (· < ·) (data.map Candle.close) →
      ((∀ t, t < data.length →
          (calculate_ema (data.map Candle.close) 15).getD t 0 ≤
            (calculate_ema (data.map Candle.close) 9).getD t 0) ∧
        (∀ t, t + 1 < data.length →
          ¬((calculate_ema (data.map Candle.close) 15).getD t 0 ≤
              (calculate_ema (data.map Candle.close) 9).getD t 0 ∧
            (calculate_ema (data.map Candle.close) 9).getD (t + 1) 0 <
              (calculate_ema (data.map Candle.close) 15).getD (t + 1) 0)) ∧
        generate_signal data ≠ some Sig.sell)) ∧
    (List.Chain' (· > ·) (data.map Candle.close) →
      ((∀ t, t < data.length →
          (calculate_ema (data.map Candle.close) 9).getD t 0 ≤
            (calculate_ema (data.map Candle.close) 15).getD t 0) ∧
        (∀ t, t + 1 < data.length →
          ¬((calculate_ema (data.map Candle.close) 9).getD t 0 ≤
              (calculate_ema (data.map Candle.close) 15).getD t 0 ∧
            (calculate_ema (data.map Candle.close) 15).getD (t + 1) 0 <
              (calculate_ema (data.map Candle.close) 9).getD (t + 1) 0)) ∧
        generate_signal data ≠ some Sig.buy)) := by
  have hmaplen : (data.map Candle.close).length = data.length := by simp
  have hne : data.map Candle.close ≠ [] :=
    List.ne_nil_of_length_pos (by rw [hmaplen]; omega)
  have hlast : (data.map Candle.close).length - 1 < data.length := by
    rw [hmaplen]; omega
  constructor
  · intro hch
    have hpt : ∀ t, t < data.length →
        (calculate_ema (data.map Candle.close) 15).getD t 0 ≤
          (calculate_ema (data.map Candle.close) 9).getD t 0 := by
      intro t ht
      exact calc_ema_slow_le_fast (data.map Candle.close) hch t
        (by rw [hmaplen]; exact ht)
    refine ⟨hpt, ?_, ?_⟩
    · intro t ht hcross
      exact absurd (hpt (t + 1) (by omega)) (not_le.mpr hcross.2)
    · intro hcon
      have hle : lastD (calculate_ema (data.map Candle.close) 15) ≤
          lastD (calculate_ema (data.map Candle.close) 9) := by
        rw [lastD_eq_getD _ (List.ne_nil_of_length_pos
            (by rw [calculate_ema_length, hmaplen]; omega)),
          lastD_eq_getD _ (List.ne_nil_of_length_pos
            (by rw [calculate_ema_length, hmaplen]; omega))]
        simp only [calculate_ema_length, hmaplen]
        exact hpt (data.length - 1) (by omega)
      have hbear : bearish_cross (data.map Candle.close) = false := by
        simp only [bearish_cross]
        rw [decide_eq_false (not_lt.mpr hle), Bool.and_false]
      simp only [generate_signal] at hcon
      rw [if_neg (by omega : ¬data.length < 30)] at hcon
      split at hcon
      · split at hcon <;> simp at hcon
      · split at hcon
        · rename_i hnb hb
          rw [hbear] at hb
          simp at hb
        · simp at hcon
  · intro hch
    have hpt : ∀ t, t < data.length →
        (calculate_ema (data.map Candle.close) 9).getD t 0 ≤
          (calculate_ema (data.map Candle.close) 15).getD t 0 := by
      intro t ht
      exact calc_ema_fast_le_slow (data.map Candle.close) hch t
        (by rw [hmaplen]; exact ht)
    refine ⟨hpt, ?_, ?_⟩
    · intro t ht hcross
      exact absurd (hpt (t + 1) (by omega)) (not_le.mpr hcross.2)
    · intro hcon
      have hle : lastD (calculate_ema (data.map Candle.close) 9) ≤
          lastD (calculate_ema (data.map Candle.close) 15) := by
        rw [lastD_eq_getD _ (List.ne_nil_of_length_pos
            (by rw [calculate_ema_length, hmaplen]; omega)),
          lastD_eq_getD _ (List.ne_nil_of_length_pos
            (by rw [calculate_ema_length, hmaplen]; omega))]
        simp only [calculate_ema_length, hmaplen]
        exact hpt (data.length - 1) (by omega)
      have hbull : bullish_cross (data.map Candle.close) = false := by
        simp only [bullish_cross]
        rw [decide_eq_false (not_lt.mpr hle), Bool.and_false]
      simp only [generate_signal] at hcon
      rw [if_neg (by omega : ¬data.length < 30)] at hcon
      split at hcon
      · rename_i hbulltrue
        rw [hbull] at hbulltrue
        simp at hbulltrue
      · split at hcon <;> simp at hcon

/-- A strictly increasing 31-bar series. -/
def incData : List Candle :=
  (List.range 31).map fun (t : ℕ) => mkFlatCandle (t : ℚ) (100 + (t : ℚ)) 100

/-- A strictly decreasing 31-bar series. -/
def decData : List Candle :=
  (List.range 31).map fun (t : ℕ) => mkFlatCandle (t : ℚ) (200 - (t : ℚ)) 100

/-- Executable check that consecutive elements satisfy `f`. -/
def chainB (f : ℚ → ℚ → Bool) : List ℚ → Bool
  | [] => true
  | [_] => true
  | x :: y :: rest => f x y && chainB f (y :: rest)

lemma chainB_iff (f : ℚ → ℚ → Bool) (R : ℚ → ℚ → Prop)
    (hf : ∀ a b, f a b = true ↔ R a b) :
    ∀ l : List ℚ, (List.Chain' R l ↔ chainB f l = true)
  | [] => by simp [chainB]
  | [x] => by simp [chainB]
  | x :: y :: rest => by
    rw [chainB, List.chain'_cons, Bool.and_eq_true, hf]
    have := chainB_iff f R hf (y :: rest)
    tauto

/-- Witness for C6 on the concrete monotone 31-bar series. -/
theorem c6_monotone_no_opposite_signal_witness :
    30 < incData.length ∧ List.Chain' (· < ·) (incData.map Candle.close) ∧
    ((∀ t, t < incData.length →
        (calculate_ema (incData.map Candle.close) 15).getD t 0 ≤
          (calculate_ema (incData.map Candle.close) 9).getD t 0) ∧
      (∀ t, t + 1 < incData.length →
        ¬((calculate_ema (incData.map Candle.close) 15).getD t 0 ≤
            (calculate_ema (incData.map Candle.close) 9).getD t 0 ∧
          (calculate_ema (incData.map Candle.close) 9).getD (t + 1) 0 <
            (calculate_ema (incData.map Candle.close) 15).getD (t + 1) 0)) ∧
      generate_signal incData ≠ some Sig.sell) ∧
    30 < decData.length ∧ List.Chain' (· > ·) (decData.map Candle.close) ∧
    ((∀ t, t < decData.length →
        (calculate_ema (decData.map Candle.close) 9).getD t 0 ≤
          (calculate_ema (decData.map Candle.close) 15).getD t 0) ∧
      (∀ t, t + 1 < decData.length →
        ¬((calculate_ema (decData.map Candle.close) 9).getD t 0 ≤
            (calculate_ema (decData.map Candle.close) 15).getD t 0 ∧
          (calculate_ema (decData.map Candle.close) 15).getD (t + 1) 0 <
            (calculate_ema (decData.map Candle.close) 9).getD (t + 1) 0)) ∧
      generate_signal decData ≠ some Sig.buy) := by
  have h1 : (30:ℕ) < incData.length := by decide
  have hc1 : List.Chain' (· < ·) (incData.map Candle.close) :=
    (chainB_iff (fun a b => decide (a < b)) _ (by simp) _).mpr (by decide)
  have h2 : (30:ℕ) < decData.length := by decide
  have hc2 : List.Chain' (· > ·) (decData.map Candle.close) :=
    (chainB_iff (fun a b => decide (b < a)) _ (by simp) _).mpr (by decide)
  exact ⟨h1, hc1, (c6_monotone_no_opposite_signal incData h1).1 hc1,
    h2, hc2, (c6_monotone_no_opposite_signal decData h2).2 hc2⟩
